import Mathlib

/-!
Verification of the two numeric cores of the `maedatimetool` repository:
the delivery-date calculator (`calculateDelivery` in `src/app.js`) and the
hourglass sand model (`SandPhysicsEngine` in `src/app.js`).

Date model.  The JavaScript code manipulates `Date` objects through
`getFullYear` / `getMonth` (zero-based) / `getDate` / `getDay` and advances
them with `setDate(getDate() + 1)`, which rolls over month and year ends.
We embed a date as its (year, calendar month 1..12, day) triple; `nextDay`
performs the same rollover; `getMonth` is the zero-based accessor;
`getDay` is the JavaScript weekday (0 = Sunday .. 6 = Saturday), computed
from the day ordinal (days since 1970-01-01, which fell on a Thursday,
JS weekday 4), exactly the quantity a JS `Date` stores internally.
-/

structure CalDate where
  year : Nat
  month : Nat
  day : Nat
deriving DecidableEq, Repr

def isLeap (y : Nat) : Bool :=
  (y % 4 == 0 && y % 100 != 0) || (y % 400 == 0)

def daysInMonth (y m : Nat) : Nat :=
  if m = 2 then (if isLeap y then 29 else 28)
  else if m = 4 ∨ m = 6 ∨ m = 9 ∨ m = 11 then 30
  else 31

/-- The semantics of `d.setDate(d.getDate() + 1)` on a valid date. -/
def nextDay (dt : CalDate) : CalDate :=
  if dt.day < daysInMonth dt.year dt.month then ⟨dt.year, dt.month, dt.day + 1⟩
  else if dt.month < 12 then ⟨dt.year, dt.month + 1, 1⟩
  else ⟨dt.year + 1, 1, 1⟩

/-- A well-formed calendar date (what a JS `Date` can hold, years ≥ 1). -/
def ValidDate (dt : CalDate) : Prop :=
  1 ≤ dt.year ∧ 1 ≤ dt.month ∧ dt.month ≤ 12 ∧ 1 ≤ dt.day ∧
    dt.day ≤ daysInMonth dt.year dt.month

instance (dt : CalDate) : Decidable (ValidDate dt) := by
  unfold ValidDate; infer_instance

/-- Days since 1970-01-01 (the count a JS `Date` stores, divided by
86 400 000 ms).  Standard civil-calendar ordinal computation. -/
def toOrdinal (dt : CalDate) : Int :=
  let y : Int := if dt.month ≤ 2 then (dt.year : Int) - 1 else (dt.year : Int)
  let era : Int := y / 400
  let yoe : Int := y - era * 400
  let mp : Int := if dt.month ≤ 2 then (dt.month : Int) + 9 else (dt.month : Int) - 3
  let doy : Int := (153 * mp + 2) / 5 + (dt.day : Int) - 1
  let doe : Int := yoe * 365 + yoe / 4 - yoe / 100 + doy
  era * 146097 + doe - 719468

/-- JS `Date.prototype.getDay`: 0 = Sunday .. 6 = Saturday.
1970-01-01 (ordinal 0) was a Thursday (JS weekday 4). -/
def getDay (dt : CalDate) : Nat :=
  ((toOrdinal dt + 4) % 7).toNat

/-- JS `Date.prototype.getMonth`: zero-based month. -/
def getMonth (dt : CalDate) : Nat :=
  dt.month - 1

/-!
Holiday table (`holidays` in `src/app.js`).  The JS table is keyed by the
string `YYYY-MM-DD` with a two-digit zero-padded month and day; since the
month key is always two digits in 01..12 and the day two digits in 01..31,
the string key determines and is determined by the (year, month, day)
number triple, so we embed the table keyed by that triple (one-based
month, exactly as in the string).
-/

def assocLookup (k : Nat × Nat × Nat) :
    List ((Nat × Nat × Nat) × String) → Option String
  | [] => none
  | (k', v) :: rest => if k = k' then some v else assocLookup k rest

def holidays : List ((Nat × Nat × Nat) × String) :=
  [((2025, 1, 1), "元日"),
   ((2025, 1, 13), "成人の日"),
   ((2025, 2, 11), "建国記念の日"),
   ((2025, 2, 23), "天皇誕生日"),
   ((2025, 2, 24), "振替休日"),
   ((2025, 3, 20), "春分の日"),
   ((2025, 4, 29), "昭和の日"),
   ((2025, 5, 3), "憲法記念日"),
   ((2025, 5, 4), "みどりの日"),
   ((2025, 5, 5), "こどもの日"),
   ((2025, 5, 6), "振替休日"),
   ((2025, 7, 21), "海の日"),
   ((2025, 8, 11), "山の日"),
   ((2025, 9, 15), "敬老の日"),
   ((2025, 9, 23), "秋分の日"),
   ((2025, 10, 13), "スポーツの日"),
   ((2025, 11, 3), "文化の日"),
   ((2025, 11, 23), "勤労感謝の日"),
   ((2025, 11, 24), "振替休日"),
   ((2026, 1, 1), "元日"),
   ((2026, 1, 12), "成人の日"),
   ((2026, 2, 11), "建国記念の日"),
   ((2026, 2, 23), "天皇誕生日"),
   ((2026, 3, 20), "春分の日"),
   ((2026, 4, 29), "昭和の日"),
   ((2026, 5, 3), "憲法記念日"),
   ((2026, 5, 4), "みどりの日"),
   ((2026, 5, 5), "こどもの日"),
   ((2026, 5, 6), "振替休日"),
   ((2026, 7, 20), "海の日"),
   ((2026, 8, 11), "山の日"),
   ((2026, 9, 21), "敬老の日"),
   ((2026, 9, 22), "国民の休日"),
   ((2026, 9, 23), "秋分の日"),
   ((2026, 10, 12), "スポーツの日"),
   ((2026, 11, 3), "文化の日"),
   ((2026, 11, 23), "勤労感謝の日"),
   ((2027, 1, 1), "元日"),
   ((2027, 1, 11), "成人の日"),
   ((2027, 2, 11), "建国記念の日"),
   ((2027, 2, 23), "天皇誕生日"),
   ((2027, 3, 21), "春分の日"),
   ((2027, 3, 22), "振替休日"),
   ((2027, 4, 29), "昭和の日"),
   ((2027, 5, 3), "憲法記念日"),
   ((2027, 5, 4), "みどりの日"),
   ((2027, 5, 5), "こどもの日"),
   ((2027, 7, 19), "海の日"),
   ((2027, 8, 11), "山の日"),
   ((2027, 9, 20), "敬老の日"),
   ((2027, 9, 23), "秋分の日"),
   ((2027, 10, 11), "スポーツの日"),
   ((2027, 11, 3), "文化の日"),
   ((2027, 11, 23), "勤労感謝の日"),
   ((2028, 1, 1), "元日"),
   ((2028, 1, 10), "成人の日"),
   ((2028, 2, 11), "建国記念の日"),
   ((2028, 2, 23), "天皇誕生日"),
   ((2028, 3, 20), "春分の日"),
   ((2028, 4, 29), "昭和の日"),
   ((2028, 5, 3), "憲法記念日"),
   ((2028, 5, 4), "みどりの日"),
   ((2028, 5, 5), "こどもの日"),
   ((2028, 7, 17), "海の日"),
   ((2028, 8, 11), "山の日"),
   ((2028, 9, 18), "敬老の日"),
   ((2028, 9, 22), "秋分の日"),
   ((2028, 10, 9), "スポーツの日"),
   ((2028, 11, 3), "文化の日"),
   ((2028, 11, 23), "勤労感謝の日")]

/-- `isHoliday(year, month, day)` from `src/app.js` (lines 200-203): `month`
is the zero-based JS month, and the lookup key is built with `month + 1`.
Returns the holiday name, or `none` for the JS `undefined` on a miss. -/
def isHoliday (year month day : Nat) : Option String :=
  assocLookup (year, month + 1, day) holidays

/-- JS truthiness of the `isHoliday` result: `undefined` and the empty
string are falsy, a non-empty string is truthy. -/
def jsTruthy (o : Option String) : Bool :=
  match o with
  | none => false
  | some s => !(s == "")

/-!
The delivery calculator (`calculateDelivery`, `src/app.js` lines 1663-1714).
The three modes act on the parsed order date with a positive `leadTime`.
The two `while` loops are embedded with an explicit fuel argument (the JS
loop is unbounded); `loopWith_fuel_mono` below shows the result does not
depend on the fuel once it is sufficient, and the termination theorems
show the fuel used by `computeDelivery` is always sufficient on valid
inputs.
-/

/-- One candidate day of the business-mode loop body: the day counts iff
it is not Sunday (0), not Saturday (6) and `!isHol`. -/
def isBusinessDay (dt : CalDate) : Bool :=
  decide (getDay dt ≠ 0) && decide (getDay dt ≠ 6) &&
    !(jsTruthy (isHoliday dt.year (getMonth dt) dt.day))

/-- One candidate day of the holiday-aware loop body: the day counts iff
`!isHol` (weekends do count). -/
def isHolidayAwareDay (dt : CalDate) : Bool :=
  !(jsTruthy (isHoliday dt.year (getMonth dt) dt.day))

/-- The business-mode `while (businessDays < leadTime)` loop, with fuel. -/
def businessLoop : Nat → CalDate → Nat → Nat → Option CalDate
  | 0, d, c, lead => if lead ≤ c then some d else none
  | f + 1, d, c, lead =>
      if lead ≤ c then some d
      else
        let d' := nextDay d
        businessLoop f d' (if isBusinessDay d' then c + 1 else c) lead

/-- The holiday-aware `while (holidayAwareDays < leadTime)` loop, with fuel. -/
def holidayLoop : Nat → CalDate → Nat → Nat → Option CalDate
  | 0, d, c, lead => if lead ≤ c then some d else none
  | f + 1, d, c, lead =>
      if lead ≤ c then some d
      else
        let d' := nextDay d
        holidayLoop f d' (if isHolidayAwareDay d' then c + 1 else c) lead

/-- `setDate(getDate() + leadTime)`: add `n` calendar days. -/
def addDays (n : Nat) (dt : CalDate) : CalDate :=
  nextDay^[n] dt

inductive DeliveryMode where
  | business
  | holidayAware
  | calendar
deriving DecidableEq, Repr

/-- The pure computation of `calculateDelivery` for one mode, on the parsed
order date and lead time (DOM access stripped).  The fuel passed to the
loops is proven sufficient for every valid date and `leadTime ≥ 1`. -/
def computeDelivery (orderDate : CalDate) (leadTime : Nat)
    (mode : DeliveryMode) : Option CalDate :=
  match mode with
  | .business => businessLoop (10 * leadTime) orderDate 0 leadTime
  | .holidayAware => holidayLoop (5 * leadTime) orderDate 0 leadTime
  | .calendar => some (addDays leadTime orderDate)

/-!
Sand model (`SandPhysicsEngine`, `src/app.js` lines 14-78), over the reals.
-/

noncomputable section

/-- `this.VOLUME_CURVE_EXPONENT = 0.7` (`src/app.js` line 23). -/
def VOLUME_CURVE_EXPONENT : ℝ := 0.7

/-- `volumeToHeight(volume, type)` (`src/app.js` lines 63-78): clamped
power transform; both the `'lower'` and the `'upper'` branch apply the
same exponent. -/
def volumeToHeight (volume : ℝ) (type : String) : ℝ :=
  if volume ≤ 0 then 0
  else if volume ≥ 1 then 1
  else if type = "lower" then volume ^ VOLUME_CURVE_EXPONENT
  else volume ^ VOLUME_CURVE_EXPONENT

structure SandHeights where
  upperHeight : ℝ
  lowerHeight : ℝ
  upperVolume : ℝ
  lowerVolume : ℝ

/-- `calculateSandHeights(progress)` (`src/app.js` lines 34-55). -/
def calculateSandHeights (progress : ℝ) : SandHeights :=
  let lowerVolume : ℝ := max 0 (min 1 progress)
  let upperVolume : ℝ := 1 - lowerVolume
  { upperHeight := volumeToHeight upperVolume "upper"
    lowerHeight := volumeToHeight lowerVolume "lower"
    upperVolume := upperVolume
    lowerVolume := lowerVolume }

end

/-!  Date arithmetic lemmas. -/

theorem daysInMonth_pos (y m : Nat) : 1 ≤ daysInMonth y m := by
  unfold daysInMonth
  split_ifs <;> omega

theorem toOrdinal_sameMonth (y m d : Nat) :
    toOrdinal ⟨y, m, d + 1⟩ = toOrdinal ⟨y, m, d⟩ + 1 := by
  simp only [toOrdinal]
  split_ifs <;> omega

theorem toOrdinal_monthRoll (y m : Nat) (h1 : 1 ≤ m) (h11 : m ≤ 11) (hm2 : m ≠ 2) :
    toOrdinal ⟨y, m + 1, 1⟩ = toOrdinal ⟨y, m, daysInMonth y m⟩ + 1 := by
  interval_cases m <;> simp only [toOrdinal, daysInMonth] <;> norm_num <;> omega

theorem toOrdinal_febRoll (y d : Nat) (hd : d = if isLeap y then 29 else 28) :
    toOrdinal ⟨y, 3, 1⟩ = toOrdinal ⟨y, 2, d⟩ + 1 := by
  simp only [toOrdinal, isLeap, Bool.or_eq_true, Bool.and_eq_true, beq_iff_eq,
    bne_iff_ne, ne_eq] at *
  split_ifs at * <;> omega

theorem toOrdinal_yearRoll (y : Nat) :
    toOrdinal ⟨y + 1, 1, 1⟩ = toOrdinal ⟨y, 12, 31⟩ + 1 := by
  simp only [toOrdinal]
  norm_num
  omega

/-- Advancing a valid date by one day advances its ordinal by one: the
struct-level rollover of `nextDay` agrees with the JS millisecond clock. -/
theorem toOrdinal_nextDay (dt : CalDate) (h : ValidDate dt) :
    toOrdinal (nextDay dt) = toOrdinal dt + 1 := by
  obtain ⟨y, m, d⟩ := dt
  obtain ⟨hy, hm1, hm12, hd1, hd2⟩ := h
  dsimp only at hy hm1 hm12 hd1 hd2
  by_cases hlt : d < daysInMonth y m
  · have hnext : nextDay ⟨y, m, d⟩ = ⟨y, m, d + 1⟩ := by
      unfold nextDay
      simp only [if_pos hlt]
    rw [hnext, toOrdinal_sameMonth]
  · have hdim : d = daysInMonth y m := by omega
    by_cases hm2 : m = 2
    · subst hm2
      have hd : d = if isLeap y then 29 else 28 := by
        rw [hdim]; rfl
      have hnext : nextDay ⟨y, 2, d⟩ = ⟨y, 3, 1⟩ := by
        unfold nextDay
        simp only [if_neg hlt]
        norm_num
      rw [hnext, toOrdinal_febRoll y d hd]
    · by_cases hm12' : m = 12
      · subst hm12'
        have hd : d = 31 := by rw [hdim]; rfl
        subst hd
        have hnext : nextDay ⟨y, 12, 31⟩ = ⟨y + 1, 1, 1⟩ := by rfl
        rw [hnext, toOrdinal_yearRoll]
      · have hm11 : m ≤ 11 := by omega
        have hnext : nextDay ⟨y, m, d⟩ = ⟨y, m + 1, 1⟩ := by
          unfold nextDay
          simp only [if_neg hlt]
          rw [if_pos (by omega : m < 12)]
        rw [hnext, hdim, toOrdinal_monthRoll y m hm1 hm11 hm2]

theorem ValidDate_nextDay (dt : CalDate) (h : ValidDate dt) :
    ValidDate (nextDay dt) := by
  obtain ⟨y, m, d⟩ := dt
  obtain ⟨hy, hm1, hm12, hd1, hd2⟩ := h
  dsimp only at hy hm1 hm12 hd1 hd2
  unfold nextDay
  dsimp only
  split_ifs with h1 h2
  · exact ⟨hy, hm1, hm12, by show 1 ≤ d + 1; omega,
      by show d + 1 ≤ daysInMonth y m; omega⟩
  · exact ⟨hy, by show 1 ≤ m + 1; omega, by show m + 1 ≤ 12; omega,
      le_refl 1, daysInMonth_pos y (m + 1)⟩
  · exact ⟨by show 1 ≤ y + 1; omega, le_refl 1, by show (1 : Nat) ≤ 12; omega,
      le_refl 1, daysInMonth_pos (y + 1) 1⟩

theorem ValidDate_iterate (dt : CalDate) (h : ValidDate dt) (n : Nat) :
    ValidDate (nextDay^[n] dt) := by
  induction n with
  | zero => exact h
  | succ n ih =>
      rw [Function.iterate_succ_apply']
      exact ValidDate_nextDay _ ih

theorem toOrdinal_iterate (dt : CalDate) (h : ValidDate dt) (n : Nat) :
    toOrdinal (nextDay^[n] dt) = toOrdinal dt + n := by
  induction n with
  | zero => simp
  | succ n ih =>
      rw [Function.iterate_succ_apply',
        toOrdinal_nextDay _ (ValidDate_iterate dt h n), ih]
      push_cast
      ring

theorem getDay_lt (dt : CalDate) : getDay dt < 7 := by
  unfold getDay
  omega

/-- Weekdays cycle with period 7 along consecutive days. -/
theorem getDay_iterate (dt : CalDate) (h : ValidDate dt) (n : Nat) :
    getDay (nextDay^[n] dt) = (getDay dt + n) % 7 := by
  unfold getDay
  rw [toOrdinal_iterate dt h n]
  omega

/-- Iterating `nextDay` from distinct offsets yields distinct dates. -/
theorem iterate_nextDay_injective (dt : CalDate) (h : ValidDate dt)
    (a b : Nat) (hab : nextDay^[a] dt = nextDay^[b] dt) : a = b := by
  have ha := toOrdinal_iterate dt h a
  have hb := toOrdinal_iterate dt h b
  rw [hab, hb] at ha
  omega

/-!  Holiday-lookup lemmas and finite checks on the concrete table. -/

/-- The lookup key `isHoliday` builds for a date: `(year, getMonth + 1, day)`
(the JS string `YYYY-MM-DD` determines exactly this triple). -/
def holidayKeyOf (dt : CalDate) : Nat × Nat × Nat :=
  (dt.year, getMonth dt + 1, dt.day)

def dateOfKey (k : Nat × Nat × Nat) : CalDate :=
  ⟨k.1, k.2.1, k.2.2⟩

/-- The truthiness test `isHol` applied by both delivery loops to a date. -/
def holidayTruthy (dt : CalDate) : Bool :=
  jsTruthy (isHoliday dt.year (getMonth dt) dt.day)

theorem isBusinessDay_eq (dt : CalDate) :
    isBusinessDay dt =
      (decide (getDay dt ≠ 0) && decide (getDay dt ≠ 6) && !holidayTruthy dt) := rfl

theorem isHolidayAwareDay_eq (dt : CalDate) :
    isHolidayAwareDay dt = !holidayTruthy dt := rfl

theorem isHoliday_eq_lookup_key (dt : CalDate) :
    isHoliday dt.year (getMonth dt) dt.day =
      assocLookup (holidayKeyOf dt) holidays := rfl

theorem assocLookup_eq_none (k : Nat × Nat × Nat)
    (l : List ((Nat × Nat × Nat) × String)) (h : k ∉ l.map Prod.fst) :
    assocLookup k l = none := by
  induction l with
  | nil => rfl
  | cons p rest ih =>
      obtain ⟨k', v⟩ := p
      simp only [List.map_cons, List.mem_cons] at h
      push_neg at h
      unfold assocLookup
      rw [if_neg h.1]
      exact ih h.2

theorem assocLookup_isSome_mem (k : Nat × Nat × Nat)
    (l : List ((Nat × Nat × Nat) × String))
    (h : (assocLookup k l).isSome = true) : k ∈ l.map Prod.fst := by
  induction l with
  | nil => simp [assocLookup] at h
  | cons p rest ih =>
      obtain ⟨k', v⟩ := p
      unfold assocLookup at h
      by_cases hk : k = k'
      · simp [hk]
      · rw [if_neg hk] at h
        simp only [List.map_cons, List.mem_cons]
        exact Or.inr (ih h)

theorem jsTruthy_isSome (o : Option String) (h : jsTruthy o = true) :
    o.isSome = true := by
  cases o <;> simp [jsTruthy] at *

theorem holidayTruthy_lookup_isSome (dt : CalDate)
    (h : holidayTruthy dt = true) :
    (assocLookup (holidayKeyOf dt) holidays).isSome = true := by
  apply jsTruthy_isSome
  rw [← isHoliday_eq_lookup_key]
  exact h

theorem dateOfKey_holidayKeyOf (dt : CalDate) (h : 1 ≤ dt.month) :
    dateOfKey (holidayKeyOf dt) = dt := by
  obtain ⟨y, m, d⟩ := dt
  dsimp only at h
  simp only [dateOfKey, holidayKeyOf, getMonth]
  congr 1
  omega

/-- `len` consecutive dates starting at `dt` all have an entry in the
holiday table. -/
def holidayChainFrom (dt : CalDate) (len : Nat) : Bool :=
  (List.range len).all
    (fun i => (assocLookup (holidayKeyOf (nextDay^[i] dt)) holidays).isSome)

/-- Finite check: the concrete table contains no run of 5 consecutive
holiday dates (the longest runs, around Golden Week, have length 4). -/
def chainCheckFive : Bool :=
  holidays.all (fun kv => !(holidayChainFrom (dateOfKey kv.1) 5))

/-- Finite check: no Monday starts a run of 4 consecutive holiday dates
(so every Monday-to-Thursday block contains a non-holiday weekday). -/
def chainCheckMonday : Bool :=
  holidays.all
    (fun kv => !((getDay (dateOfKey kv.1) == 1) && holidayChainFrom (dateOfKey kv.1) 4))

theorem chainCheckFive_true : chainCheckFive = true := by decide

theorem chainCheckMonday_true : chainCheckMonday = true := by decide

theorem no_five_consecutive_holidays (dt : CalDate) (h1m : 1 ≤ dt.month)
    (hchain : holidayChainFrom dt 5 = true) : False := by
  have h0 : (assocLookup (holidayKeyOf dt) holidays).isSome = true := by
    have := (List.all_eq_true.mp hchain) 0 (by simp)
    simpa using this
  have hmem : holidayKeyOf dt ∈ holidays.map Prod.fst :=
    assocLookup_isSome_mem _ _ h0
  obtain ⟨p, hp, hpk⟩ := List.mem_map.mp hmem
  have hall := (List.all_eq_true.mp chainCheckFive_true) p hp
  rw [hpk, dateOfKey_holidayKeyOf dt h1m] at hall
  rw [hchain] at hall
  simp at hall

theorem no_monday_four_holidays (dt : CalDate) (h1m : 1 ≤ dt.month)
    (hmon : getDay dt = 1) (hchain : holidayChainFrom dt 4 = true) : False := by
  have h0 : (assocLookup (holidayKeyOf dt) holidays).isSome = true := by
    have := (List.all_eq_true.mp hchain) 0 (by simp)
    simpa using this
  have hmem : holidayKeyOf dt ∈ holidays.map Prod.fst :=
    assocLookup_isSome_mem _ _ h0
  obtain ⟨p, hp, hpk⟩ := List.mem_map.mp hmem
  have hall := (List.all_eq_true.mp chainCheckMonday_true) p hp
  rw [hpk, dateOfKey_holidayKeyOf dt h1m] at hall
  rw [hchain, hmon] at hall
  simp at hall

/-!  Generic analysis of the fueled day-stepping loop. -/

/-- Both `while` loops of `calculateDelivery` instantiate this shape. -/
def loopWith (good : CalDate → Bool) : Nat → CalDate → Nat → Nat → Option CalDate
  | 0, d, c, lead => if lead ≤ c then some d else none
  | f + 1, d, c, lead =>
      if lead ≤ c then some d
      else loopWith good f (nextDay d) (if good (nextDay d) then c + 1 else c) lead

theorem businessLoop_eq_loopWith (f : Nat) (d : CalDate) (c lead : Nat) :
    businessLoop f d c lead = loopWith isBusinessDay f d c lead := by
  induction f generalizing d c with
  | zero => rfl
  | succ f ih =>
      simp only [businessLoop, loopWith]
      by_cases h : lead ≤ c
      · simp [h]
      · simp only [if_neg h]
        exact ih _ _

theorem holidayLoop_eq_loopWith (f : Nat) (d : CalDate) (c lead : Nat) :
    holidayLoop f d c lead = loopWith isHolidayAwareDay f d c lead := by
  induction f generalizing d c with
  | zero => rfl
  | succ f ih =>
      simp only [holidayLoop, loopWith]
      by_cases h : lead ≤ c
      · simp [h]
      · simp only [if_neg h]
        exact ih _ _

theorem loopWith_done (good : CalDate → Bool) (f : Nat) (d : CalDate)
    (c lead : Nat) (h : lead ≤ c) : loopWith good f d c lead = some d := by
  cases f <;> simp [loopWith, h]

theorem loopWith_fuel_mono (good : CalDate → Bool) :
    ∀ f f' d c lead r, f ≤ f' → loopWith good f d c lead = some r →
      loopWith good f' d c lead = some r := by
  intro f
  induction f with
  | zero =>
      intro f' d c lead r _ h0
      by_cases hdone : lead ≤ c
      · rw [loopWith_done good 0 d c lead hdone] at h0
        rw [loopWith_done good f' d c lead hdone]
        exact h0
      · simp [loopWith, hdone] at h0
  | succ f ih =>
      intro f' d c lead r hle h0
      obtain ⟨f'', rfl⟩ : ∃ f'', f' = f'' + 1 :=
        ⟨f' - 1, by omega⟩
      by_cases hdone : lead ≤ c
      · rw [loopWith_done good _ d c lead hdone] at h0
        rw [loopWith_done good _ d c lead hdone]
        exact h0
      · simp only [loopWith, if_neg hdone] at h0 ⊢
        exact ih f'' _ _ _ _ (by omega) h0

/-- Number of counted (`good`) days among the `n` candidate days
`nextDay^[1] d, …, nextDay^[n] d` traversed by the loop. -/
def goodCount (good : CalDate → Bool) (d : CalDate) (n : Nat) : Nat :=
  ((List.range n).filter (fun i => good (nextDay^[i + 1] d))).length

theorem goodCount_zero (good : CalDate → Bool) (d : CalDate) :
    goodCount good d 0 = 0 := rfl

theorem goodCount_succ (good : CalDate → Bool) (d : CalDate) (n : Nat) :
    goodCount good d (n + 1) =
      goodCount good d n + (if good (nextDay^[n + 1] d) = true then 1 else 0) := by
  by_cases h : good (nextDay^[n + 1] d) = true <;>
    simp only [goodCount, List.range_succ, List.filter_append,
      List.length_append] <;>
    rw [Function.iterate_succ_apply] at h <;>
    simp [List.filter_cons, h]

theorem goodCount_shift (good : CalDate → Bool) (d : CalDate) (n : Nat) :
    goodCount good d (n + 1) =
      (if good (nextDay d) = true then 1 else 0) + goodCount good (nextDay d) n := by
  induction n with
  | zero =>
      rw [goodCount_succ, goodCount_zero, goodCount_zero, Function.iterate_one]
      omega
  | succ n ih =>
      rw [goodCount_succ, ih, goodCount_succ]
      have hit : nextDay^[n + 1 + 1] d = nextDay^[n + 1] (nextDay d) := by
        rw [Function.iterate_succ_apply]
      rw [hit]
      ring

theorem goodCount_add_split (good : CalDate → Bool) (d : CalDate) (a b : Nat) :
    goodCount good d (a + b) =
      goodCount good d a + goodCount good (nextDay^[a] d) b := by
  induction b with
  | zero => simp [goodCount_zero]
  | succ b ih =>
      have h1 : a + (b + 1) = (a + b) + 1 := by omega
      rw [h1, goodCount_succ, ih, goodCount_succ]
      have hit : nextDay^[b + 1] (nextDay^[a] d) = nextDay^[a + b + 1] d := by
        rw [← Function.iterate_add_apply]
        congr 1
        omega
      rw [hit]
      ring

theorem goodCount_pos (good : CalDate → Bool) (d : CalDate) (n j : Nat)
    (hj1 : 1 ≤ j) (hjn : j ≤ n) (hgood : good (nextDay^[j] d) = true) :
    1 ≤ goodCount good d n := by
  have hmem : j - 1 ∈ (List.range n).filter (fun i => good (nextDay^[i + 1] d)) := by
    apply List.mem_filter.mpr
    constructor
    · exact List.mem_range.mpr (by omega)
    · have hj : j - 1 + 1 = j := by omega
      rw [hj]
      exact hgood
  exact List.length_pos_of_mem hmem

/-- If every valid date sees a `good` day within `W` steps, then any
`W * k` consecutive candidate days contain at least `k` good ones. -/
theorem goodCount_blocks (good : CalDate → Bool) (W : Nat)
    (hQ : ∀ e, ValidDate e → ∃ j, 1 ≤ j ∧ j ≤ W ∧ good (nextDay^[j] e) = true)
    (d : CalDate) (h : ValidDate d) (k : Nat) :
    k ≤ goodCount good d (W * k) := by
  induction k generalizing d h with
  | zero => simp
  | succ k ih =>
      obtain ⟨j, hj1, hjW, hgood⟩ := hQ d h
      have h1 : 1 ≤ goodCount good d W := goodCount_pos good d W j hj1 hjW hgood
      have hsplit := goodCount_add_split good d W (W * k)
      have ihW := ih (nextDay^[W] d) (ValidDate_iterate d h W)
      have hmul : W * (k + 1) = W + W * k := by ring
      rw [hmul, hsplit]
      omega

theorem goodCount_one (good : CalDate → Bool) (d : CalDate) :
    goodCount good d 1 = if good (nextDay d) = true then 1 else 0 := by
  have h := goodCount_shift good d 0
  simpa [goodCount_zero] using h

theorem loopWith_char (good : CalDate → Bool) :
    ∀ (f : Nat) (d : CalDate) (c lead : Nat), c < lead →
      (∃ n, n ≤ f ∧ lead ≤ c + goodCount good d n) →
      ∃ n, 1 ≤ n ∧ n ≤ f ∧
        loopWith good f d c lead = some (nextDay^[n] d) ∧
        c + goodCount good d n = lead ∧
        good (nextDay^[n] d) = true ∧
        ∀ m, m < n → c + goodCount good d m < lead := by
  intro f
  induction f with
  | zero =>
      intro d c lead hc hex
      obtain ⟨n, hn, hcount⟩ := hex
      exfalso
      have hn0 : n = 0 := by omega
      subst hn0
      rw [goodCount_zero] at hcount
      omega
  | succ f ih =>
      intro d c lead hc hex
      obtain ⟨n, hn, hcount⟩ := hex
      have hn1 : 1 ≤ n := by
        by_contra hn0
        have h0 : n = 0 := by omega
        subst h0
        rw [goodCount_zero] at hcount
        omega
      have hstep : loopWith good (f + 1) d c lead =
          loopWith good f (nextDay d)
            (if good (nextDay d) = true then c + 1 else c) lead := by
        simp only [loopWith, if_neg (by omega : ¬ lead ≤ c)]
      by_cases hg : good (nextDay d) = true
      · by_cases hdone : c + 1 = lead
        · refine ⟨1, le_refl 1, by omega, ?_, ?_, ?_, ?_⟩
          · rw [hstep, if_pos hg, Function.iterate_one]
            exact loopWith_done good f (nextDay d) (c + 1) lead (by omega)
          · rw [goodCount_one, if_pos hg]
            omega
          · rw [Function.iterate_one]
            exact hg
          · intro m hm
            have hm0 : m = 0 := by omega
            subst hm0
            rw [goodCount_zero]
            omega
        · have hc' : c + 1 < lead := by omega
          have hex' : ∃ n', n' ≤ f ∧ lead ≤ (c + 1) + goodCount good (nextDay d) n' := by
            obtain ⟨n', rfl⟩ : ∃ n', n = n' + 1 := ⟨n - 1, by omega⟩
            refine ⟨n', by omega, ?_⟩
            rw [goodCount_shift, if_pos hg] at hcount
            omega
          obtain ⟨ns, hns1, hnsf, heq, hcnt, hgoodn, hmin⟩ :=
            ih (nextDay d) (c + 1) lead hc' hex'
          refine ⟨ns + 1, by omega, by omega, ?_, ?_, ?_, ?_⟩
          · rw [hstep, if_pos hg, heq, ← Function.iterate_succ_apply]
          · rw [goodCount_shift, if_pos hg]
            omega
          · rw [Function.iterate_succ_apply]
            exact hgoodn
          · intro m hm
            cases m with
            | zero =>
                rw [goodCount_zero]
                omega
            | succ m' =>
                rw [goodCount_shift, if_pos hg]
                have := hmin m' (by omega)
                omega
      · have hgf : ¬ good (nextDay d) = true := hg
        have hex' : ∃ n', n' ≤ f ∧ lead ≤ c + goodCount good (nextDay d) n' := by
          obtain ⟨n', rfl⟩ : ∃ n', n = n' + 1 := ⟨n - 1, by omega⟩
          refine ⟨n', by omega, ?_⟩
          rw [goodCount_shift, if_neg hgf] at hcount
          omega
        obtain ⟨ns, hns1, hnsf, heq, hcnt, hgoodn, hmin⟩ :=
          ih (nextDay d) c lead hc hex'
        refine ⟨ns + 1, by omega, by omega, ?_, ?_, ?_, ?_⟩
        · rw [hstep, if_neg hgf, heq, ← Function.iterate_succ_apply]
        · rw [goodCount_shift, if_neg hgf]
          omega
        · rw [Function.iterate_succ_apply]
          exact hgoodn
        · intro m hm
          cases m with
          | zero =>
              rw [goodCount_zero]
              omega
          | succ m' =>
              rw [goodCount_shift, if_neg hgf]
              have := hmin m' (by omega)
              omega

/-!  A counted day occurs within a bounded window of any valid date. -/

/-- Holiday-aware mode: among the next 5 days there is always a
non-holiday day, because the table contains no run of 5 consecutive
holiday dates. -/
theorem exists_holidayAware_within5 (dt : CalDate) (h : ValidDate dt) :
    ∃ j, 1 ≤ j ∧ j ≤ 5 ∧ isHolidayAwareDay (nextDay^[j] dt) = true := by
  by_contra hc
  push_neg at hc
  have hall : ∀ j, 1 ≤ j → j ≤ 5 → holidayTruthy (nextDay^[j] dt) = true := by
    intro j h1 h5
    have hne := hc j h1 h5
    rw [isHolidayAwareDay_eq] at hne
    simpa using hne
  have hchain : holidayChainFrom (nextDay dt) 5 = true := by
    unfold holidayChainFrom
    apply List.all_eq_true.mpr
    intro i hi
    have hi5 : i < 5 := List.mem_range.mp hi
    have hit : nextDay^[i] (nextDay dt) = nextDay^[i + 1] dt :=
      (Function.iterate_succ_apply nextDay i dt).symm
    rw [hit]
    exact holidayTruthy_lookup_isSome _ (hall (i + 1) (by omega) (by omega))
  exact no_five_consecutive_holidays (nextDay dt)
    (ValidDate_nextDay dt h).2.1 hchain

/-- Business mode: among the next 10 days there is always a counted
business day — the next Monday arrives within 7 steps and the table
contains no Monday-to-Thursday block of 4 consecutive holidays. -/
theorem exists_business_within10 (dt : CalDate) (h : ValidDate dt) :
    ∃ j, 1 ≤ j ∧ j ≤ 10 ∧ isBusinessDay (nextDay^[j] dt) = true := by
  have hw := getDay_lt dt
  set w := getDay dt with hwdef
  set j0 := (7 - w) % 7 + 1 with hj0def
  have hj01 : 1 ≤ j0 := by omega
  have hj07 : j0 ≤ 7 := by omega
  have hday : ∀ i, i ≤ 3 → getDay (nextDay^[j0 + i] dt) = 1 + i := by
    intro i hi
    rw [getDay_iterate dt h (j0 + i), ← hwdef]
    omega
  by_cases hh : ∀ i, i ≤ 3 → holidayTruthy (nextDay^[j0 + i] dt) = true
  · exfalso
    have hMvalid := ValidDate_iterate dt h j0
    have hMmon : getDay (nextDay^[j0] dt) = 1 := by
      have h0 := hday 0 (by omega)
      simpa using h0
    have hchain : holidayChainFrom (nextDay^[j0] dt) 4 = true := by
      unfold holidayChainFrom
      apply List.all_eq_true.mpr
      intro i hi
      have hi4 : i < 4 := List.mem_range.mp hi
      have hit : nextDay^[i] (nextDay^[j0] dt) = nextDay^[j0 + i] dt := by
        rw [← Function.iterate_add_apply]
        congr 1
        omega
      rw [hit]
      exact holidayTruthy_lookup_isSome _ (hh i (by omega))
    exact no_monday_four_holidays (nextDay^[j0] dt) hMvalid.2.1 hMmon hchain
  · push_neg at hh
    obtain ⟨i, hi3, hih⟩ := hh
    refine ⟨j0 + i, by omega, by omega, ?_⟩
    rw [isBusinessDay_eq]
    have hgd := hday i hi3
    have hhf : holidayTruthy (nextDay^[j0 + i] dt) = false := by
      simpa using hih
    rw [hgd, hhf]
    simp only [Bool.and_eq_true, decide_eq_true_eq, Bool.not_false]
    exact ⟨⟨by omega, by omega⟩, trivial⟩

/-!  Termination and characterization of the loops on all valid inputs. -/

theorem businessLoop_terminates (d : CalDate) (h : ValidDate d) (lead : Nat)
    (hl : 1 ≤ lead) :
    ∃ n, 1 ≤ n ∧ n ≤ 10 * lead ∧
      businessLoop (10 * lead) d 0 lead = some (nextDay^[n] d) ∧
      goodCount isBusinessDay d n = lead ∧
      isBusinessDay (nextDay^[n] d) = true ∧
      ∀ m, m < n → goodCount isBusinessDay d m < lead := by
  have hT2 : lead ≤ goodCount isBusinessDay d (10 * lead) :=
    goodCount_blocks isBusinessDay 10 exists_business_within10 d h lead
  obtain ⟨n, h1, h2, h3, h4, h5, h6⟩ :=
    loopWith_char isBusinessDay (10 * lead) d 0 lead (by omega)
      ⟨10 * lead, le_refl _, by omega⟩
  refine ⟨n, h1, h2, ?_, by omega, h5, ?_⟩
  · rw [businessLoop_eq_loopWith]
    exact h3
  · intro m hm
    have := h6 m hm
    omega

theorem holidayLoop_terminates (d : CalDate) (h : ValidDate d) (lead : Nat)
    (hl : 1 ≤ lead) :
    ∃ n, 1 ≤ n ∧ n ≤ 5 * lead ∧
      holidayLoop (5 * lead) d 0 lead = some (nextDay^[n] d) ∧
      goodCount isHolidayAwareDay d n = lead ∧
      isHolidayAwareDay (nextDay^[n] d) = true ∧
      ∀ m, m < n → goodCount isHolidayAwareDay d m < lead := by
  have hT2 : lead ≤ goodCount isHolidayAwareDay d (5 * lead) :=
    goodCount_blocks isHolidayAwareDay 5 exists_holidayAware_within5 d h lead
  obtain ⟨n, h1, h2, h3, h4, h5, h6⟩ :=
    loopWith_char isHolidayAwareDay (5 * lead) d 0 lead (by omega)
      ⟨5 * lead, le_refl _, by omega⟩
  refine ⟨n, h1, h2, ?_, by omega, h5, ?_⟩
  · rw [holidayLoop_eq_loopWith]
    exact h3
  · intro m hm
    have := h6 m hm
    omega

/-- Number of skipped (not counted) days among the `n` traversed days. -/
def badCount (good : CalDate → Bool) (d : CalDate) (n : Nat) : Nat :=
  ((List.range n).filter (fun i => !(good (nextDay^[i + 1] d)))).length

theorem badCount_succ (good : CalDate → Bool) (d : CalDate) (n : Nat) :
    badCount good d (n + 1) =
      badCount good d n + (if good (nextDay^[n + 1] d) = true then 0 else 1) := by
  by_cases h : good (nextDay^[n + 1] d) = true <;>
    simp only [badCount, List.range_succ, List.filter_append,
      List.length_append] <;>
    rw [Function.iterate_succ_apply] at h <;>
    simp [List.filter_cons, h]

/-- Every traversed day is either counted or skipped. -/
theorem goodCount_add_badCount (good : CalDate → Bool) (d : CalDate) (n : Nat) :
    goodCount good d n + badCount good d n = n := by
  induction n with
  | zero => rfl
  | succ n ih =>
      rw [goodCount_succ, badCount_succ]
      split_ifs <;> omega

/-!  The truthiness test agrees with table membership: every name stored
in the table is a non-empty string. -/

theorem assocLookup_mem (k : Nat × Nat × Nat)
    (l : List ((Nat × Nat × Nat) × String)) (v : String)
    (h : assocLookup k l = some v) : (k, v) ∈ l := by
  induction l with
  | nil => simp [assocLookup] at h
  | cons p rest ih =>
      obtain ⟨k', v'⟩ := p
      unfold assocLookup at h
      by_cases hk : k = k'
      · rw [if_pos hk] at h
        have hv : v' = v := by
          injection h
        subst hk
        subst hv
        exact List.mem_cons_self _ _
      · rw [if_neg hk] at h
        exact List.mem_cons_of_mem _ (ih h)

theorem holidayValues_nonempty :
    holidays.all (fun p => !(p.2 == "")) = true := by decide

theorem holidayTruthy_eq_isSome (dt : CalDate) :
    holidayTruthy dt = (assocLookup (holidayKeyOf dt) holidays).isSome := by
  unfold holidayTruthy
  rw [isHoliday_eq_lookup_key]
  rcases hlk : assocLookup (holidayKeyOf dt) holidays with _ | v
  · simp [jsTruthy]
  · have hmem := assocLookup_mem _ _ _ hlk
    have hv := (List.all_eq_true.mp holidayValues_nonempty) _ hmem
    simp only [jsTruthy, Option.isSome_some]
    simpa using hv

/-- Business-day test, spelled out: not Sunday, not Saturday, and the
holiday lookup misses. -/
theorem isBusinessDay_iff (dt : CalDate) :
    isBusinessDay dt = true ↔
      (getDay dt ≠ 0 ∧ getDay dt ≠ 6 ∧
        isHoliday dt.year (getMonth dt) dt.day = none) := by
  have h1 : holidayTruthy dt = false ↔
      isHoliday dt.year (getMonth dt) dt.day = none := by
    rw [holidayTruthy_eq_isSome, isHoliday_eq_lookup_key]
    rcases assocLookup (holidayKeyOf dt) holidays with _ | v <;> simp
  rw [isBusinessDay_eq]
  simp only [Bool.and_eq_true, decide_eq_true_eq, Bool.not_eq_true']
  constructor
  · rintro ⟨⟨h0, h6⟩, hh⟩
    exact ⟨h0, h6, h1.mp hh⟩
  · rintro ⟨h0, h6, hh⟩
    exact ⟨⟨h0, h6⟩, h1.mpr hh⟩

/-- Holiday-aware test, spelled out: counted iff the holiday lookup misses. -/
theorem isHolidayAwareDay_iff (dt : CalDate) :
    isHolidayAwareDay dt = true ↔
      isHoliday dt.year (getMonth dt) dt.day = none := by
  have h1 : holidayTruthy dt = false ↔
      isHoliday dt.year (getMonth dt) dt.day = none := by
    rw [holidayTruthy_eq_isSome, isHoliday_eq_lookup_key]
    rcases assocLookup (holidayKeyOf dt) holidays with _ | v <;> simp
  rw [isHolidayAwareDay_eq]
  simp only [Bool.not_eq_true']
  exact h1

/-- Spec-side lookup: the holiday-table entry for a calendar date given by
its one-based month and day, as written in the `YYYY-MM-DD` keys. -/
def holidayNameOfCalendarDate (year month day : Nat) : Option String :=
  assocLookup (year, month, day) holidays

/-- C1: In business mode, `computeDelivery` advances one day at a time
starting from `orderDate + 1` (the order date itself is never counted),
increments the counter exactly on days that are not Saturday, not Sunday
and not present in the holiday table, and returns the candidate day on
which the counter reaches `leadTime`; with the repository's table,
order date 2025-01-01 and `leadTime` 5 yield 2025-01-08. -/
theorem C1_business_mode :
    computeDelivery ⟨2025, 1, 1⟩ 5 .business = some ⟨2025, 1, 8⟩ ∧
    (∀ dt : CalDate, isBusinessDay dt = true ↔
      (getDay dt ≠ 0 ∧ getDay dt ≠ 6 ∧
        isHoliday dt.year (getMonth dt) dt.day = none)) ∧
    ∀ (d : CalDate) (lead : Nat), ValidDate d → 1 ≤ lead →
      ∃ n, 1 ≤ n ∧
        computeDelivery d lead .business = some (nextDay^[n] d) ∧
        goodCount isBusinessDay d n = lead ∧
        isBusinessDay (nextDay^[n] d) = true ∧
        ∀ m, m < n → goodCount isBusinessDay d m < lead := by
  refine ⟨by decide, isBusinessDay_iff, ?_⟩
  intro d lead hv hl
  obtain ⟨n, h1, h2, h3, h4, h5, h6⟩ := businessLoop_terminates d hv lead hl
  exact ⟨n, h1, h3, h4, h5, h6⟩

theorem C1_business_mode_witness :
    ValidDate ⟨2025, 1, 1⟩ ∧ 1 ≤ 5 ∧
      ∃ n, 1 ≤ n ∧
        computeDelivery ⟨2025, 1, 1⟩ 5 .business = some (nextDay^[n] ⟨2025, 1, 1⟩) ∧
        goodCount isBusinessDay ⟨2025, 1, 1⟩ n = 5 ∧
        isBusinessDay (nextDay^[n] ⟨2025, 1, 1⟩) = true ∧
        ∀ m, m < n → goodCount isBusinessDay ⟨2025, 1, 1⟩ m < 5 :=
  ⟨by decide, by decide,
    C1_business_mode.2.2 ⟨2025, 1, 1⟩ 5 (by decide) (by decide)⟩

/-- C2: In holiday-aware mode, `computeDelivery` advances day by day from
`orderDate + 1` and increments the counter on every day except those
present in the holiday table (Saturdays and Sundays count), returning the
day on which the counter reaches `leadTime`; order date 2025-01-10 with
`leadTime` 3 and 2025-01-13 a listed holiday yield 2025-01-14. -/
theorem C2_holidayAware_mode :
    computeDelivery ⟨2025, 1, 10⟩ 3 .holidayAware = some ⟨2025, 1, 14⟩ ∧
    (∀ dt : CalDate, isHolidayAwareDay dt = true ↔
      isHoliday dt.year (getMonth dt) dt.day = none) ∧
    ∀ (d : CalDate) (lead : Nat), ValidDate d → 1 ≤ lead →
      ∃ n, 1 ≤ n ∧
        computeDelivery d lead .holidayAware = some (nextDay^[n] d) ∧
        goodCount isHolidayAwareDay d n = lead ∧
        isHolidayAwareDay (nextDay^[n] d) = true ∧
        ∀ m, m < n → goodCount isHolidayAwareDay d m < lead := by
  refine ⟨by decide, isHolidayAwareDay_iff, ?_⟩
  intro d lead hv hl
  obtain ⟨n, h1, h2, h3, h4, h5, h6⟩ := holidayLoop_terminates d hv lead hl
  exact ⟨n, h1, h3, h4, h5, h6⟩

theorem C2_holidayAware_mode_witness :
    ValidDate ⟨2025, 1, 10⟩ ∧ 1 ≤ 3 ∧
      ∃ n, 1 ≤ n ∧
        computeDelivery ⟨2025, 1, 10⟩ 3 .holidayAware = some (nextDay^[n] ⟨2025, 1, 10⟩) ∧
        goodCount isHolidayAwareDay ⟨2025, 1, 10⟩ n = 3 ∧
        isHolidayAwareDay (nextDay^[n] ⟨2025, 1, 10⟩) = true ∧
        ∀ m, m < n → goodCount isHolidayAwareDay ⟨2025, 1, 10⟩ m < 3 :=
  ⟨by decide, by decide,
    C2_holidayAware_mode.2.2 ⟨2025, 1, 10⟩ 3 (by decide) (by decide)⟩

/-- C3: In calendar mode, for every valid order date and `leadTime` at
least 1, `computeDelivery` returns the order date plus exactly `leadTime`
calendar days, unconditionally; order date 2025-01-01 with `leadTime` 5
yields 2025-01-06. -/
theorem C3_calendar_mode :
    computeDelivery ⟨2025, 1, 1⟩ 5 .calendar = some ⟨2025, 1, 6⟩ ∧
    ∀ (d : CalDate) (lead : Nat), ValidDate d → 1 ≤ lead →
      computeDelivery d lead .calendar = some (addDays lead d) ∧
      toOrdinal (addDays lead d) = toOrdinal d + lead := by
  refine ⟨by decide, ?_⟩
  intro d lead hv hl
  refine ⟨rfl, ?_⟩
  unfold addDays
  exact toOrdinal_iterate d hv lead

theorem C3_calendar_mode_witness :
    ValidDate ⟨2025, 1, 1⟩ ∧ 1 ≤ 5 ∧
      (computeDelivery ⟨2025, 1, 1⟩ 5 .calendar = some (addDays 5 ⟨2025, 1, 1⟩) ∧
        toOrdinal (addDays 5 ⟨2025, 1, 1⟩) = toOrdinal ⟨2025, 1, 1⟩ + 5) :=
  ⟨by decide, by decide, C3_calendar_mode.2 ⟨2025, 1, 1⟩ 5 (by decide) (by decide)⟩

/-- C7: For every `leadTime` at least 1 and every valid order date, the
business and holiday-aware day-stepping loops terminate (their fuel of
`10 * leadTime` resp. `5 * leadTime` is sufficient), each iteration
strictly advances the date by one day (the ordinal of the result is the
start ordinal plus the iteration count), and the number of iterations is
exactly `leadTime` plus the number of skipped (weekend or holiday) days. -/
theorem C7_loops_terminate :
    ∀ (d : CalDate) (lead : Nat), ValidDate d → 1 ≤ lead →
      (∃ n, n ≤ 10 * lead ∧
        businessLoop (10 * lead) d 0 lead = some (nextDay^[n] d) ∧
        toOrdinal (nextDay^[n] d) = toOrdinal d + n ∧
        n = lead + badCount isBusinessDay d n) ∧
      (∃ n, n ≤ 5 * lead ∧
        holidayLoop (5 * lead) d 0 lead = some (nextDay^[n] d) ∧
        toOrdinal (nextDay^[n] d) = toOrdinal d + n ∧
        n = lead + badCount isHolidayAwareDay d n) := by
  intro d lead hv hl
  constructor
  · obtain ⟨n, h1, h2, h3, h4, h5, h6⟩ := businessLoop_terminates d hv lead hl
    refine ⟨n, h2, h3, toOrdinal_iterate d hv n, ?_⟩
    have hsum := goodCount_add_badCount isBusinessDay d n
    omega
  · obtain ⟨n, h1, h2, h3, h4, h5, h6⟩ := holidayLoop_terminates d hv lead hl
    refine ⟨n, h2, h3, toOrdinal_iterate d hv n, ?_⟩
    have hsum := goodCount_add_badCount isHolidayAwareDay d n
    omega

theorem C7_loops_terminate_witness :
    ValidDate ⟨2025, 1, 1⟩ ∧ 1 ≤ 5 ∧
      ((∃ n, n ≤ 10 * 5 ∧
        businessLoop (10 * 5) ⟨2025, 1, 1⟩ 0 5 = some (nextDay^[n] ⟨2025, 1, 1⟩) ∧
        toOrdinal (nextDay^[n] ⟨2025, 1, 1⟩) = toOrdinal ⟨2025, 1, 1⟩ + n ∧
        n = 5 + badCount isBusinessDay ⟨2025, 1, 1⟩ n) ∧
      (∃ n, n ≤ 5 * 5 ∧
        holidayLoop (5 * 5) ⟨2025, 1, 1⟩ 0 5 = some (nextDay^[n] ⟨2025, 1, 1⟩) ∧
        toOrdinal (nextDay^[n] ⟨2025, 1, 1⟩) = toOrdinal ⟨2025, 1, 1⟩ + n ∧
        n = 5 + badCount isHolidayAwareDay ⟨2025, 1, 1⟩ n)) :=
  ⟨by decide, by decide, C7_loops_terminate ⟨2025, 1, 1⟩ 5 (by decide) (by decide)⟩

/-- C8: A holiday-table lookup for a date with no entry behaves as "not a
holiday" and is never an error: for every (year, zero-based month, day)
whose key is absent from the table, `isHoliday` returns `none`, and the
delivery computation treats such a day as a non-holiday in both modes. -/
theorem C8_lookup_miss_not_error :
    ∀ (year month day : Nat),
      (year, month + 1, day) ∉ holidays.map Prod.fst →
      isHoliday year month day = none ∧
      ∀ dt : CalDate, dt.year = year → getMonth dt = month → dt.day = day →
        isHolidayAwareDay dt = true ∧
        isBusinessDay dt = (decide (getDay dt ≠ 0) && decide (getDay dt ≠ 6)) := by
  intro year month day hmem
  have hnone : isHoliday year month day = none := by
    unfold isHoliday
    exact assocLookup_eq_none _ _ hmem
  refine ⟨hnone, ?_⟩
  intro dt h1 h2 h3
  have hkey : isHoliday dt.year (getMonth dt) dt.day = none := by
    rw [h1, h2, h3]
    exact hnone
  constructor
  · exact (isHolidayAwareDay_iff dt).mpr hkey
  · rw [isBusinessDay_eq]
    have ht : holidayTruthy dt = false := by
      unfold holidayTruthy
      rw [hkey]
      rfl
    rw [ht]
    simp

theorem C8_lookup_miss_not_error_witness :
    (2025, 0 + 1, 2) ∉ holidays.map Prod.fst ∧
      (isHoliday 2025 0 2 = none ∧
        ∀ dt : CalDate, dt.year = 2025 → getMonth dt = 0 → dt.day = 2 →
          isHolidayAwareDay dt = true ∧
          isBusinessDay dt = (decide (getDay dt ≠ 0) && decide (getDay dt ≠ 6))) :=
  ⟨by decide, C8_lookup_miss_not_error 2025 0 2 (by decide)⟩

/-- C9 (implicit): the month convention at the holiday-lookup interface is
consistent: `isHoliday` takes a zero-based month and builds its key with
`month + 1`, matching the one-based keys of the table, so looking a date
up through the zero-based `getMonth` (as every call site in
`calculateDelivery` does) returns exactly the table's entry for that
calendar date, with no off-by-one month; 2025-01-13 is found as a
holiday when queried with zero-based month 0. -/
theorem C9_month_convention :
    (∀ (year month day : Nat),
      isHoliday year month day = holidayNameOfCalendarDate year (month + 1) day) ∧
    (∀ dt : CalDate, 1 ≤ dt.month →
      isHoliday dt.year (getMonth dt) dt.day =
        holidayNameOfCalendarDate dt.year dt.month dt.day) ∧
    (∀ dt : CalDate, 1 ≤ dt.month →
      (isHolidayAwareDay dt = true ↔
        holidayNameOfCalendarDate dt.year dt.month dt.day = none)) ∧
    (isHoliday 2025 0 13).isSome = true := by
  have hmid : ∀ dt : CalDate, 1 ≤ dt.month →
      isHoliday dt.year (getMonth dt) dt.day =
        holidayNameOfCalendarDate dt.year dt.month dt.day := by
    intro dt h1
    unfold isHoliday holidayNameOfCalendarDate getMonth
    have h2 : dt.month - 1 + 1 = dt.month := by omega
    rw [h2]
  refine ⟨fun y m d => rfl, hmid, ?_, by decide⟩
  intro dt h1
  rw [isHolidayAwareDay_iff, hmid dt h1]

theorem C9_month_convention_witness :
    1 ≤ (⟨2025, 1, 13⟩ : CalDate).month ∧
      (isHoliday (⟨2025, 1, 13⟩ : CalDate).year (getMonth ⟨2025, 1, 13⟩)
          (⟨2025, 1, 13⟩ : CalDate).day =
        holidayNameOfCalendarDate (⟨2025, 1, 13⟩ : CalDate).year
          (⟨2025, 1, 13⟩ : CalDate).month (⟨2025, 1, 13⟩ : CalDate).day) :=
  ⟨by decide, C9_month_convention.2.1 ⟨2025, 1, 13⟩ (by decide)⟩

/-!  Sand-model lemmas. -/

theorem EXPONENT_pos : (0 : ℝ) < VOLUME_CURVE_EXPONENT := by
  norm_num [VOLUME_CURVE_EXPONENT]

theorem EXPONENT_lt_one : VOLUME_CURVE_EXPONENT < 1 := by
  norm_num [VOLUME_CURVE_EXPONENT]

theorem volumeToHeight_eq (v : ℝ) (t : String) :
    volumeToHeight v t =
      if v ≤ 0 then 0 else if v ≥ 1 then 1 else v ^ VOLUME_CURVE_EXPONENT := by
  unfold volumeToHeight
  split_ifs <;> rfl

theorem volumeToHeight_nonneg (v : ℝ) (t : String) : 0 ≤ volumeToHeight v t := by
  rw [volumeToHeight_eq]
  split_ifs with h1 h2
  · norm_num
  · norm_num
  · exact Real.rpow_nonneg (by linarith) _

theorem volumeToHeight_le_one (v : ℝ) (t : String) : volumeToHeight v t ≤ 1 := by
  rw [volumeToHeight_eq]
  split_ifs with h1 h2
  · norm_num
  · norm_num
  · exact Real.rpow_le_one (by linarith) (by linarith) EXPONENT_pos.le

theorem volumeToHeight_mono (t : String) (v1 v2 : ℝ) (h : v1 ≤ v2) :
    volumeToHeight v1 t ≤ volumeToHeight v2 t := by
  rw [volumeToHeight_eq, volumeToHeight_eq]
  split_ifs
  all_goals first
    | linarith
    | exact Real.rpow_nonneg (by linarith) _
    | exact Real.rpow_le_one (by linarith) (by linarith) EXPONENT_pos.le
    | exact Real.rpow_le_rpow (by linarith) h EXPONENT_pos.le

theorem volumeToHeight_of_le_zero (v : ℝ) (t : String) (h : v ≤ 0) :
    volumeToHeight v t = 0 := by
  rw [volumeToHeight_eq, if_pos h]

theorem volumeToHeight_of_ge_one (v : ℝ) (t : String) (h : 1 ≤ v) :
    volumeToHeight v t = 1 := by
  rw [volumeToHeight_eq, if_neg (by linarith), if_pos (by linarith)]

theorem volumeToHeight_of_between (v : ℝ) (t : String) (h0 : 0 < v) (h1 : v < 1) :
    volumeToHeight v t = v ^ VOLUME_CURVE_EXPONENT := by
  rw [volumeToHeight_eq, if_neg (by linarith), if_neg (by linarith)]

theorem calculateSandHeights_mid (p : ℝ) (h0 : 0 < p) (h1 : p < 1) :
    (calculateSandHeights p).upperHeight = (1 - p) ^ VOLUME_CURVE_EXPONENT ∧
    (calculateSandHeights p).lowerHeight = p ^ VOLUME_CURVE_EXPONENT := by
  have hclamp : max 0 (min 1 p) = p := by
    rw [min_eq_right h1.le, max_eq_right h0.le]
  constructor
  · show volumeToHeight (1 - max 0 (min 1 p)) "upper" = _
    rw [hclamp, volumeToHeight_of_between _ _ (by linarith) (by linarith)]
  · show volumeToHeight (max 0 (min 1 p)) "lower" = _
    rw [hclamp, volumeToHeight_of_between _ _ h0 h1]

theorem calculateSandHeights_at_zero :
    (calculateSandHeights 0).upperHeight = 1 ∧
    (calculateSandHeights 0).lowerHeight = 0 := by
  constructor
  · show volumeToHeight (1 - max 0 (min 1 (0 : ℝ))) "upper" = 1
    apply volumeToHeight_of_ge_one
    norm_num
  · show volumeToHeight (max 0 (min 1 (0 : ℝ))) "lower" = 0
    apply volumeToHeight_of_le_zero
    norm_num

theorem calculateSandHeights_at_one :
    (calculateSandHeights 1).upperHeight = 0 ∧
    (calculateSandHeights 1).lowerHeight = 1 := by
  constructor
  · show volumeToHeight (1 - max 0 (min 1 (1 : ℝ))) "upper" = 0
    apply volumeToHeight_of_le_zero
    norm_num
  · show volumeToHeight (max 0 (min 1 (1 : ℝ))) "lower" = 1
    apply volumeToHeight_of_ge_one
    norm_num

theorem rpow_exponent_gt_self (x : ℝ) (h0 : 0 < x) (h1 : x < 1) :
    x < x ^ VOLUME_CURVE_EXPONENT := by
  have h := Real.rpow_lt_rpow_of_exponent_gt h0 h1 EXPONENT_lt_one
  rwa [Real.rpow_one] at h

/-- C4: For every real progress input, `calculateSandHeights` sets
`lowerVolume` to the clamp of progress into [0,1] and `upperVolume` to
`1 - lowerVolume`, so the two volumes sum to exactly 1 for every input
(out-of-range inputs are silently clamped, never an error). -/
theorem C4_volume_conservation (p : ℝ) :
    (calculateSandHeights p).lowerVolume = max 0 (min 1 p) ∧
    (calculateSandHeights p).upperVolume = 1 - (calculateSandHeights p).lowerVolume ∧
    (calculateSandHeights p).upperVolume + (calculateSandHeights p).lowerVolume = 1 := by
  refine ⟨rfl, rfl, ?_⟩
  show (1 - max 0 (min 1 p)) + max 0 (min 1 p) = 1
  ring

/-- C5: `calculateSandHeights` is monotone in progress: for `p1 < p2` in
[0,1], the lower height does not decrease and the upper height does not
increase, where each height is the corresponding volume raised to the
fixed exponent `VOLUME_CURVE_EXPONENT = 0.7`. -/
theorem C5_height_monotonic :
    VOLUME_CURVE_EXPONENT = 0.7 ∧
    (∀ (v : ℝ) (t : String), 0 < v → v < 1 →
      volumeToHeight v t = v ^ VOLUME_CURVE_EXPONENT) ∧
    ∀ p1 p2 : ℝ, 0 ≤ p1 → p1 < p2 → p2 ≤ 1 →
      (calculateSandHeights p1).lowerHeight ≤ (calculateSandHeights p2).lowerHeight ∧
      (calculateSandHeights p2).upperHeight ≤ (calculateSandHeights p1).upperHeight := by
  refine ⟨rfl, volumeToHeight_of_between, ?_⟩
  intro p1 p2 h0 hlt h1
  have hclamp : max 0 (min 1 p1) ≤ max 0 (min 1 p2) :=
    max_le_max (le_refl 0) (min_le_min (le_refl 1) hlt.le)
  constructor
  · show volumeToHeight (max 0 (min 1 p1)) "lower" ≤
      volumeToHeight (max 0 (min 1 p2)) "lower"
    exact volumeToHeight_mono _ _ _ hclamp
  · show volumeToHeight (1 - max 0 (min 1 p2)) "upper" ≤
      volumeToHeight (1 - max 0 (min 1 p1)) "upper"
    exact volumeToHeight_mono _ _ _ (by linarith)

theorem C5_height_monotonic_witness :
    (0 : ℝ) ≤ 0 ∧ (0 : ℝ) < 1 ∧ (1 : ℝ) ≤ 1 ∧
      ((calculateSandHeights 0).lowerHeight ≤ (calculateSandHeights 1).lowerHeight ∧
        (calculateSandHeights 1).upperHeight ≤ (calculateSandHeights 0).upperHeight) :=
  ⟨le_refl 0, by norm_num, le_refl 1,
    C5_height_monotonic.2.2 0 1 (le_refl 0) (by norm_num) (le_refl 1)⟩

/-- C6: `calculateSandHeights` takes the spec's exact reference values:
at progress 0 it returns upper height 1 and lower height 0; at progress 1
it returns upper height 0 and lower height 1; at progress 0.5 both
heights equal `0.5 ^ 0.7` (both chambers use the same exponent). -/
theorem C6_reference_points :
    (calculateSandHeights 0).upperHeight = 1 ∧
    (calculateSandHeights 0).lowerHeight = 0 ∧
    (calculateSandHeights 1).upperHeight = 0 ∧
    (calculateSandHeights 1).lowerHeight = 1 ∧
    (calculateSandHeights 0.5).upperHeight = (0.5 : ℝ) ^ VOLUME_CURVE_EXPONENT ∧
    (calculateSandHeights 0.5).lowerHeight = (0.5 : ℝ) ^ VOLUME_CURVE_EXPONENT := by
  have hmid := calculateSandHeights_mid 0.5 (by norm_num) (by norm_num)
  refine ⟨calculateSandHeights_at_zero.1, calculateSandHeights_at_zero.2,
    calculateSandHeights_at_one.1, calculateSandHeights_at_one.2, ?_, ?_⟩
  · rw [hmid.1]
    norm_num
  · exact hmid.2

/-- C10 (implicit): conservation holds for volumes but not for heights:
for progress strictly between 0 and 1 the height sum equals
`(1-p)^0.7 + p^0.7` and strictly exceeds 1; within [0,1] the height sum
equals 1 exactly at progress 0 and 1; and both heights lie in [0,1] for
every real input. -/
theorem C10_height_sum_exceeds_one :
    (∀ p : ℝ, 0 < p → p < 1 →
      (calculateSandHeights p).upperHeight + (calculateSandHeights p).lowerHeight
        = (1 - p) ^ VOLUME_CURVE_EXPONENT + p ^ VOLUME_CURVE_EXPONENT ∧
      1 < (calculateSandHeights p).upperHeight + (calculateSandHeights p).lowerHeight) ∧
    (∀ p : ℝ, 0 ≤ p → p ≤ 1 →
      ((calculateSandHeights p).upperHeight + (calculateSandHeights p).lowerHeight = 1
        ↔ (p = 0 ∨ p = 1))) ∧
    (∀ p : ℝ,
      0 ≤ (calculateSandHeights p).upperHeight ∧
      (calculateSandHeights p).upperHeight ≤ 1 ∧
      0 ≤ (calculateSandHeights p).lowerHeight ∧
      (calculateSandHeights p).lowerHeight ≤ 1) := by
  have hmid : ∀ p : ℝ, 0 < p → p < 1 →
      (calculateSandHeights p).upperHeight + (calculateSandHeights p).lowerHeight
        = (1 - p) ^ VOLUME_CURVE_EXPONENT + p ^ VOLUME_CURVE_EXPONENT ∧
      1 < (calculateSandHeights p).upperHeight + (calculateSandHeights p).lowerHeight := by
    intro p h0 h1
    obtain ⟨hu, hl⟩ := calculateSandHeights_mid p h0 h1
    refine ⟨by rw [hu, hl], ?_⟩
    rw [hu, hl]
    have ha := rpow_exponent_gt_self p h0 h1
    have hb := rpow_exponent_gt_self (1 - p) (by linarith) (by linarith)
    linarith
  refine ⟨hmid, ?_, ?_⟩
  · intro p h0 h1
    constructor
    · intro hsum
      by_contra hne
      push_neg at hne
      obtain ⟨hne0, hne1⟩ := hne
      have h0' : 0 < p := lt_of_le_of_ne h0 (Ne.symm hne0)
      have h1' : p < 1 := lt_of_le_of_ne h1 hne1
      have := (hmid p h0' h1').2
      linarith
    · rintro (rfl | rfl)
      · rw [calculateSandHeights_at_zero.1, calculateSandHeights_at_zero.2]
        norm_num
      · rw [calculateSandHeights_at_one.1, calculateSandHeights_at_one.2]
        norm_num
  · intro p
    refine ⟨?_, ?_, ?_, ?_⟩
    · show (0 : ℝ) ≤ volumeToHeight (1 - max 0 (min 1 p)) "upper"
      exact volumeToHeight_nonneg _ _
    · show volumeToHeight (1 - max 0 (min 1 p)) "upper" ≤ 1
      exact volumeToHeight_le_one _ _
    · show (0 : ℝ) ≤ volumeToHeight (max 0 (min 1 p)) "lower"
      exact volumeToHeight_nonneg _ _
    · show volumeToHeight (max 0 (min 1 p)) "lower" ≤ 1
      exact volumeToHeight_le_one _ _

theorem C10_height_sum_exceeds_one_witness :
    (0 : ℝ) < 0.5 ∧ (0.5 : ℝ) < 1 ∧
      ((calculateSandHeights 0.5).upperHeight + (calculateSandHeights 0.5).lowerHeight
        = (1 - 0.5 : ℝ) ^ VOLUME_CURVE_EXPONENT + (0.5 : ℝ) ^ VOLUME_CURVE_EXPONENT ∧
      1 < (calculateSandHeights 0.5).upperHeight + (calculateSandHeights 0.5).lowerHeight) :=
  ⟨by norm_num, by norm_num,
    C10_height_sum_exceeds_one.1 0.5 (by norm_num) (by norm_num)⟩
